import Mathlib

/-!
Verification development for the semantic-memory-mcp pattern store
(`src/index.js`).  The JavaScript source is embedded shallowly:

* JSON metadata objects become the `Metadata` structure, with absent fields
  as `none`;
* JS numbers carried in metadata are modeled as `ℚ` (they are exact in the
  scenarios considered), while the decay computation, which involves a real
  exponential, lives in `ℝ`;
* timestamps are milliseconds since the epoch (`ℚ`), matching `Date`
  subtraction in the source; the current clock reading `now` is passed
  explicitly;
* the external collaborators (OpenAI embeddings, Redis) are modeled by an
  ordered trace of the external calls an operation issues (`ExtOp`), and
  the raw hits an index query returns are supplied as inputs.
-/

namespace SemanticMemory

/-- A pattern's metadata object.  Absent JSON fields are `none`.  Numeric
fields are `ℚ`; `confidence_current`, the one field produced by the decay
computation, is `ℝ`.  `tags` is carried opaquely. -/
structure Metadata where
  confidence : Option ℚ := none
  evidence_count : Option ℤ := none
  tags : Option (List String) := none
  source : Option String := none
  validation_contexts : Option (List String) := none
  created_at : Option ℚ := none
  last_validated : Option ℚ := none
  confidence_current : Option ℝ := none
  confidence_original : Option ℚ := none
  promoted_from : Option String := none
  promoted_at : Option ℚ := none
  original_pattern_id : Option String := none

/-- Embedding of `calculateConfidenceDecay` (src/index.js lines 312-321).
An absent `lastValidated` (`none`, the JS falsy check) returns the
confidence unchanged; otherwise the elapsed time in months is
`(now - lastValidated) / (1000*60*60*24*30)` and the result is
`confidence * 0.95 ** months` clamped as `max 0 (min 1 _)`. -/
noncomputable def calculateConfidenceDecay (confidence : ℝ)
    (lastValidated : Option ℚ) (now : ℚ) : ℝ :=
  match lastValidated with
  | none => confidence
  | some lastValidatedDate =>
    let monthsSinceLastUse : ℝ :=
      ((now : ℝ) - (lastValidatedDate : ℝ)) / (1000 * 60 * 60 * 24 * 30)
    let decayedConfidence := confidence * Real.rpow 0.95 monthsSinceLastUse
    max 0 (min 1 decayedConfidence)

/-- The decay formula as the specification words it: elapsed months are
`(now - last_validated) / (30 days)`, the result is
`confidence_original × 0.95 ^ months` clamped to `[0, 1]`, and an absent
`last_validated` returns `confidence_original` unchanged.  Stated as a
separate definition to compare against the embedded source function. -/
noncomputable def decaySpecFormula (confidence : ℝ)
    (lastValidated : Option ℚ) (now : ℚ) : ℝ :=
  match lastValidated with
  | none => confidence
  | some t =>
    let months : ℝ := ((now : ℝ) - (t : ℝ)) / (30 * 24 * 60 * 60 * 1000)
    min 1 (max 0 (confidence * Real.rpow 0.95 months))

theorem clamp01_comm (x : ℝ) : max 0 (min 1 x) = min 1 (max 0 x) := by
  rw [max_min_distrib_left, max_eq_right zero_le_one]

/-- Claim C2: the confidence decay function is pure and matches the
specification's formula: for every confidence `c` and timestamp `t`,
`decay(c, t, now) = clamp(c × 0.95^((now − t) / 30 days), 0, 1)` with
continuous months, and `decay(c, none, now) = c`.  Determinism and absence
of mutation hold by construction: the embedded function is a pure function
of its arguments. -/
theorem calculateConfidenceDecay_matches_spec (c : ℝ) (lv : Option ℚ) (now : ℚ) :
    calculateConfidenceDecay c lv now = decaySpecFormula c lv now ∧
    calculateConfidenceDecay c none now = c := by
  refine ⟨?_, rfl⟩
  cases lv with
  | none => rfl
  | some t =>
    show max 0 (min 1 _) = min 1 (max 0 _)
    rw [clamp01_comm]
    norm_num

/-- Claim C8 counterexample: with an absent `last_validated` the source
returns the confidence unchanged and unclamped, so a confidence above 1
escapes the interval `[0, 1]`. -/
theorem calculateConfidenceDecay_escapes_interval :
    calculateConfidenceDecay (3 / 2) none 0 = 3 / 2 ∧
    ¬ calculateConfidenceDecay (3 / 2) none 0 ≤ 1 := by
  constructor
  · rfl
  · show ¬ (3 / 2 : ℝ) ≤ 1
    norm_num

/-- Claim C8 as amended: whenever `last_validated` is present the result is
clamped into `[0, 1]`, for every confidence (even outside `[0, 1]`); with
an absent `last_validated` the confidence is returned unchanged, so it lies
in `[0, 1]` only when the input does. -/
theorem calculateConfidenceDecay_clamped_when_validated (c : ℝ) (t now : ℚ) :
    0 ≤ calculateConfidenceDecay c (some t) now ∧
    calculateConfidenceDecay c (some t) now ≤ 1 ∧
    calculateConfidenceDecay c none now = c := by
  refine ⟨?_, ?_, rfl⟩
  · exact le_max_left 0 _
  · exact max_le zero_le_one (min_le_left 1 _)

/-- JS `ToInt32`: reduce an integer into the signed 32-bit range
`[-2^31, 2^31)` modulo `2^32`. -/
def toInt32 (n : ℤ) : ℤ := (n + 2 ^ 31) % 2 ^ 32 - 2 ^ 31

/-- One iteration of the `hashCode` loop (src/index.js lines 657-665):
`hash = (hash << 5) - hash + char` where `<< 5` wraps at 32 bits, followed
by `hash = hash & hash`, which coerces the double back to a signed 32-bit
integer. -/
def hashStep (hash char : ℤ) : ℤ := toInt32 (toInt32 (hash * 32) - hash + char)

/-- `hashCode` (src/index.js lines 657-665): fold `hashStep` over the
character codes of the string, starting from 0.  `charCodeAt` is modeled by
the character's code point (identical on the basic multilingual plane). -/
def hashCode (str : String) : ℤ :=
  str.data.foldl (fun h c => hashStep h (Int.ofNat c.toNat)) 0

/-- The digest embedded in pattern keys (src/index.js line 339):
`Math.abs(hashCode(content)) % 100000000`. -/
def contentDigest (content : String) : ℕ := (hashCode content).natAbs % 100000000

/-- Pattern key construction (src/index.js line 339):
`pattern:{memory_type}:{category}:{digest}`. -/
def mkPatternId (memoryType category content : String) : String :=
  "pattern:" ++ memoryType ++ ":" ++ category ++ ":" ++ toString (contentDigest content)

/-- The tier table lookup
`Object.values(MEMORY_TYPES).find(m => m.name === memoryType)` followed by
`?.ttl` (src/index.js lines 54-70 and 350-352).  The outer `Option` is the
`find` (no entry for an unrecognized name); the inner one is the stored
`ttl`, `null` for semantic and procedural. -/
def memoryTypesTtl (memoryType : String) : Option (Option ℤ) :=
  if memoryType = "semantic" then some none
  else if memoryType = "episodic" then some (some (90 * 24 * 60 * 60))
  else if memoryType = "procedural" then some none
  else none

/-- `memoryConfig?.ttl` collapsed: `none` models both JS `undefined` and
`null` (both skip the `if (ttl)` expiration and are reported as a null
`ttl_seconds`). -/
def ttlOf (memoryType : String) : Option ℤ := (memoryTypesTtl memoryType).bind id

/-- The hash-record fields persisted by `hSet` (src/index.js lines 359-365).
The embedding is recorded as the text it encodes; its float values are
produced by the external generator and never inspected by the core. -/
structure StoredFields where
  category : String
  memory_type : String
  content : String
  metadata : Metadata
  embedding_of : String

/-- An external call issued by an operation: an embedding request, a Redis
hash write, a key expiration, or an index search. -/
inductive ExtOp where
  | embed (text : String)
  | hSet (key : String) (fields : StoredFields)
  | expire (key : String) (ttl : ℤ)
  | ftSearch (query : String)

/-- Operations that write to the key-value store. -/
def isWriteOp : ExtOp → Bool
  | .hSet _ _ => true
  | .expire _ _ => true
  | _ => false

/-- The metadata carried by each `hSet` in a trace, in order. -/
def storedMetadatas (ops : List ExtOp) : List Metadata :=
  ops.filterMap fun op =>
    match op with
    | .hSet _ fields => some fields.metadata
    | _ => none

/-- The value returned by `storePattern` (src/index.js lines 375-380). -/
structure StoreResult where
  pattern_id : String
  memory_type : String
  ttl_seconds : Option ℤ
  status : String

/-- Metadata enrichment in `storePattern` (src/index.js lines 342-348):
spread the caller metadata, set `created_at` and `last_validated` to the
current time, and default `source` and `validation_contexts` through the
JS `||` operator (an empty-string source is falsy and also replaced). -/
def enrichMetadata (now : ℚ) (metadata : Metadata) : Metadata :=
  { metadata with
    created_at := some now
    last_validated := some now
    source := some (match metadata.source with
      | some s => if s = "" then "unknown" else s
      | none => "unknown")
    validation_contexts := some (metadata.validation_contexts.getD []) }

/-- `storePattern` (src/index.js lines 334-381).  `now` is the clock
reading.  The caller metadata is an `Option` because the source
dereferences it only after the embedding call: a missing metadata object
throws there, after the external generator has already been invoked.
Returns the ordered external-call trace and the outcome. -/
def storePattern (now : ℚ) (category memoryType content : String)
    (metadata : Option Metadata) : List ExtOp × Except String StoreResult :=
  let patternId := mkPatternId memoryType category content
  match metadata with
  | none =>
    ([ExtOp.embed content],
     Except.error "TypeError: cannot read properties of undefined")
  | some md =>
    let enriched := enrichMetadata now md
    let ttl := ttlOf memoryType
    let setOp := ExtOp.hSet patternId
      { category := category
        memory_type := memoryType
        content := content
        metadata := enriched
        embedding_of := content }
    let expireOps : List ExtOp :=
      match ttl with
      | some t => if t = 0 then [] else [ExtOp.expire patternId t]
      | none => []
    ([ExtOp.embed content, setOp] ++ expireOps,
     Except.ok
       { pattern_id := patternId
         memory_type := memoryType
         ttl_seconds := ttl
         status := "stored" })

/-- One raw hit returned by the vector index, with the fields the query
asks back (src/index.js lines 408-416 and 422-450). -/
structure Hit where
  pattern_id : String
  category : String
  memory_type : String
  content : String
  metadata : Metadata

/-- JS truthiness of the optional numeric `confidence` field: present and
nonzero. -/
def truthyConfidence : Option ℚ → Bool
  | none => false
  | some c => if c = 0 then false else true

/-- Search-result metadata post-processing (src/index.js lines 431-441):
when `metadata.confidence && metadata.last_validated` is truthy, attach
`confidence_current` (the decayed value) and `confidence_original` (a copy
of `confidence`); otherwise the metadata passes through unchanged.  The
`confidence` field itself is never modified. -/
noncomputable def applyDecayToMetadata (now : ℚ) (m : Metadata) : Metadata :=
  if truthyConfidence m.confidence && m.last_validated.isSome then
    { m with
      confidence_current :=
        some (calculateConfidenceDecay ((m.confidence.getD 0 : ℚ) : ℝ)
          m.last_validated now)
      confidence_original := m.confidence }
  else m

/-- The per-hit post-processing loop of `searchPatterns`
(src/index.js lines 422-450). -/
noncomputable def searchPostProcess (now : ℚ) (hits : List Hit) : List Hit :=
  hits.map fun h => { h with metadata := applyDecayToMetadata now h.metadata }

/-- The search query string construction (src/index.js lines 396-401):
conjoin the optional tag filters, degrade to `*` when there are none, and
append the KNN clause. -/
def buildSearchQuery (k : ℕ) (category memoryType : Option String) : String :=
  let filters : List String :=
    (match category with
      | some c => ["@category:\x7b" ++ c ++ "\x7d"]
      | none => []) ++
    (match memoryType with
      | some m => ["@memory_type:\x7b" ++ m ++ "\x7d"]
      | none => [])
  let baseQuery :=
    if filters.isEmpty then "*"
    else "(" ++ String.intercalate " " filters ++ ")"
  baseQuery ++ "=>[KNN " ++ toString k ++ " @embedding $vec AS score]"

/-- The value returned by `searchPatterns` (src/index.js lines 452-457). -/
structure SearchOutcome where
  results : List Hit
  count : ℕ

/-- `searchPatterns` (src/index.js lines 390-461), with the raw hits the
external index returns for the executed query supplied as `hits`.  The
external calls are the query embedding followed by the index search; the
operation writes nothing. -/
noncomputable def searchPatterns (now : ℚ) (query : String) (k : ℕ)
    (category memoryType : Option String) (hits : List Hit) :
    List ExtOp × SearchOutcome :=
  let processed := searchPostProcess now hits
  ([ExtOp.embed query, ExtOp.ftSearch (buildSearchQuery k category memoryType)],
   { results := processed, count := processed.length })

/-- A Phase A (episodic → semantic) promotion candidate
(src/index.js lines 581-587). -/
structure Candidate where
  pattern_id : String
  category : String
  content_preview : String
  evidence_count : ℤ
  confidence : Option ℚ

/-- A Phase B (semantic → canonical) graduation candidate
(src/index.js lines 624-631). -/
structure CanonicalCandidate where
  pattern_id : String
  category : String
  content_preview : String
  evidence_count : ℤ
  confidence : ℚ
  ready_for_export : Bool

/-- The candidate record pushed in Phase A: a 100-character content
preview, the evidence count read through `|| 0`, and the (possibly absent)
confidence field. -/
def mkCandidateA (p : Hit) : Candidate :=
  { pattern_id := p.pattern_id
    category := p.category
    content_preview := p.content.take 100 ++ "..."
    evidence_count := p.metadata.evidence_count.getD 0
    confidence := p.metadata.confidence }

/-- The candidate record pushed in Phase B, flagged `ready_for_export`. -/
def mkCandidateB (p : Hit) : CanonicalCandidate :=
  { pattern_id := p.pattern_id
    category := p.category
    content_preview := p.content.take 100 ++ "..."
    evidence_count := p.metadata.evidence_count.getD 0
    confidence := p.metadata.confidence.getD 0
    ready_for_export := true }

/-- The metadata stored with a Phase A promotion (src/index.js lines
596-601): the search-result metadata spread, plus the provenance fields
`promoted_from`, `promoted_at`, `original_pattern_id`. -/
def promotionMetadata (now : ℚ) (p : Hit) : Metadata :=
  { p.metadata with
    promoted_from := some "episodic"
    promoted_at := some now
    original_pattern_id := some p.pattern_id }

/-- The Phase A loop body (src/index.js lines 576-607), acting on the
state (external calls so far, candidates so far, promoted counter).  A
pattern whose evidence count, read through `|| 0`, meets `minEvidence`
becomes a candidate; when not a dry run its semantic copy is stored and
the counter is incremented. -/
def phaseAStep (now : ℚ) (dryRun : Bool) (minEvidence : ℤ)
    (acc : List ExtOp × List Candidate × ℕ) (p : Hit) :
    List ExtOp × List Candidate × ℕ :=
  let evidenceCount := p.metadata.evidence_count.getD 0
  if minEvidence ≤ evidenceCount then
    if dryRun then (acc.1, acc.2.1 ++ [mkCandidateA p], acc.2.2)
    else
      (acc.1 ++
        (storePattern now p.category "semantic" p.content
          (some (promotionMetadata now p))).1,
       acc.2.1 ++ [mkCandidateA p], acc.2.2 + 1)
  else acc

/-- The Phase B loop body (src/index.js lines 615-639): the fixed
thresholds are `evidence_count >= 20` and `confidence >= 0.95`; this phase
never writes, and a non-dry run only increments the `graduated` counter. -/
def phaseBStep (dryRun : Bool)
    (acc : List ExtOp × List CanonicalCandidate × ℕ) (p : Hit) :
    List ExtOp × List CanonicalCandidate × ℕ :=
  let evidenceCount := p.metadata.evidence_count.getD 0
  let confidence := p.metadata.confidence.getD 0
  if 20 ≤ evidenceCount ∧ (0.95 : ℚ) ≤ confidence then
    (acc.1, acc.2.1 ++ [mkCandidateB p],
     if dryRun then acc.2.2 else acc.2.2 + 1)
  else acc

/-- The report returned by `consolidateMemories`
(src/index.js lines 558-569 and 642-651), with the summary counts the
source appends at the end. -/
structure ConsolidateReport where
  dry_run : Bool
  promotion_type : String
  ets_candidates : List Candidate
  promoted : ℕ
  stc_candidates : List CanonicalCandidate
  graduated : ℕ
  summary_episodic_candidates : ℕ
  summary_episodic_promoted : ℕ
  summary_canonical_candidates : ℕ

/-- `consolidateMemories` (src/index.js lines 553-652).  The raw hits the
two wildcard index queries would return are supplied as `episodicHits` and
`semanticHits`; each phase runs them through `searchPatterns` (with query
`*`, `k = 1000` and the memory-type filter) exactly as the source does.
The first component is the ordered trace of every external call of the
run. -/
noncomputable def consolidateMemories (now : ℚ) (dryRun : Bool)
    (promotionType : String) (minEvidence : ℤ)
    (episodicHits semanticHits : List Hit) :
    List ExtOp × ConsolidateReport :=
  let phaseA : List ExtOp × List Candidate × ℕ :=
    if promotionType = "episodic_to_semantic" ∨ promotionType = "both" then
      let s := searchPatterns now "*" 1000 none (some "episodic") episodicHits
      s.2.results.foldl (phaseAStep now dryRun minEvidence) (s.1, [], 0)
    else ([], [], 0)
  let phaseB : List ExtOp × List CanonicalCandidate × ℕ :=
    if promotionType = "semantic_to_canonical" ∨ promotionType = "both" then
      let s := searchPatterns now "*" 1000 none (some "semantic") semanticHits
      s.2.results.foldl (phaseBStep dryRun) (s.1, [], 0)
    else ([], [], 0)
  (phaseA.1 ++ phaseB.1,
   { dry_run := dryRun
     promotion_type := promotionType
     ets_candidates := phaseA.2.1
     promoted := phaseA.2.2
     stc_candidates := phaseB.2.1
     graduated := phaseB.2.2
     summary_episodic_candidates := phaseA.2.1.length
     summary_episodic_promoted := phaseA.2.2
     summary_canonical_candidates := phaseB.2.1.length })

/-- JS `value || dflt` on an optional string: absent and empty strings are
falsy and replaced by the default. -/
def jsOrString (v : Option String) (dflt : String) : String :=
  match v with
  | some s => if s = "" then dflt else s
  | none => dflt

/-- The arguments of a `store_pattern` tool call.  `category` and `content`
are the supplied strings; `memory_type` and `metadata` are `none` when the
caller omits them. -/
structure StoreArgs where
  category : String
  memory_type : Option String := none
  content : String
  metadata : Option Metadata := none

/-- The `store_pattern` branch of the tool dispatcher
(src/index.js lines 694-701): the arguments are forwarded to
`storePattern` with `args.memory_type || "semantic"`; no validation of
any field happens before the call. -/
def handleStorePattern (now : ℚ) (args : StoreArgs) :
    List ExtOp × Except String StoreResult :=
  storePattern now args.category (jsOrString args.memory_type "semantic")
    args.content args.metadata

/-- `args.dry_run !== false` (src/index.js line 726): every value except
an explicit `false` yields `true`. -/
def coerceDryRun : Option Bool → Bool
  | some false => false
  | _ => true

/-- `args.min_evidence || 5` (src/index.js line 729): absent and zero
arguments are falsy and coerced to the default 5. -/
def coerceMinEvidence : Option ℤ → ℤ
  | none => 5
  | some v => if v = 0 then 5 else v

/-- The `consolidate_memories` branch of the tool dispatcher
(src/index.js lines 724-730): coerce the three arguments and run the
consolidation engine. -/
noncomputable def handleConsolidateMemories (now : ℚ) (dryRun : Option Bool)
    (promotionType : Option String) (minEvidence : Option ℤ)
    (episodicHits semanticHits : List Hit) :
    List ExtOp × ConsolidateReport :=
  consolidateMemories now (coerceDryRun dryRun)
    (jsOrString promotionType "episodic_to_semantic")
    (coerceMinEvidence minEvidence) episodicHits semanticHits

/-- Whether a store outcome succeeded. -/
def resultOk : Except String StoreResult → Bool
  | .ok _ => true
  | .error _ => false

/-- Claim C3: a `store_pattern` with `memory_type = episodic` returns
`ttl_seconds = 7776000` and applies a 7776000-second expiration to the
stored key; with `semantic` or `procedural` the returned `ttl_seconds` is
null and the trace carries no expiration, only the embedding call and the
hash write. -/
theorem storePattern_ttl_law (now : ℚ) (category content : String) (md : Metadata) :
    (storePattern now category "episodic" content (some md)).2 =
      Except.ok
        { pattern_id := mkPatternId "episodic" category content
          memory_type := "episodic"
          ttl_seconds := some 7776000
          status := "stored" } ∧
    (storePattern now category "episodic" content (some md)).1 =
      [ExtOp.embed content,
       ExtOp.hSet (mkPatternId "episodic" category content)
         { category := category, memory_type := "episodic", content := content,
           metadata := enrichMetadata now md, embedding_of := content },
       ExtOp.expire (mkPatternId "episodic" category content) 7776000] ∧
    (storePattern now category "semantic" content (some md)).2 =
      Except.ok
        { pattern_id := mkPatternId "semantic" category content
          memory_type := "semantic"
          ttl_seconds := none
          status := "stored" } ∧
    (storePattern now category "semantic" content (some md)).1 =
      [ExtOp.embed content,
       ExtOp.hSet (mkPatternId "semantic" category content)
         { category := category, memory_type := "semantic", content := content,
           metadata := enrichMetadata now md, embedding_of := content }] ∧
    (storePattern now category "procedural" content (some md)).2 =
      Except.ok
        { pattern_id := mkPatternId "procedural" category content
          memory_type := "procedural"
          ttl_seconds := none
          status := "stored" } ∧
    (storePattern now category "procedural" content (some md)).1 =
      [ExtOp.embed content,
       ExtOp.hSet (mkPatternId "procedural" category content)
         { category := category, memory_type := "procedural", content := content,
           metadata := enrichMetadata now md, embedding_of := content }] :=
  ⟨rfl, rfl, rfl, rfl, rfl, rfl⟩

/-- Claim C7: pattern identity is a deterministic function of `category`,
`memory_type` and `content` alone: two stores with the same three inputs —
whatever the clock reading or metadata — return the same `pattern_id`, of
the form `pattern:{memory_type}:{category}:{digest}`, where the digest is
a natural number strictly below 100000000 computed only from the
content. -/
theorem storePattern_id_deterministic (now now2 : ℚ)
    (category memoryType content : String) (md md2 : Metadata) :
    (storePattern now category memoryType content (some md)).2 =
      Except.ok
        { pattern_id := mkPatternId memoryType category content
          memory_type := memoryType
          ttl_seconds := ttlOf memoryType
          status := "stored" } ∧
    (storePattern now2 category memoryType content (some md2)).2 =
      Except.ok
        { pattern_id := mkPatternId memoryType category content
          memory_type := memoryType
          ttl_seconds := ttlOf memoryType
          status := "stored" } ∧
    mkPatternId memoryType category content =
      "pattern:" ++ memoryType ++ ":" ++ category ++ ":" ++
        toString (contentDigest content) ∧
    contentDigest content < 100000000 :=
  ⟨rfl, rfl, rfl, Nat.mod_lt _ (by norm_num)⟩

/-- Claim C10: at the tool boundary a `min_evidence` of 0 is falsy and is
coerced to the default 5 (as is an absent argument), so the invocation
behaves identically to `min_evidence = 5` and a zero threshold cannot
request promotion of every episodic pattern. -/
theorem consolidate_min_evidence_falsy_default (now : ℚ) (dr : Option Bool)
    (pt : Option String) (episodicHits semanticHits : List Hit) :
    handleConsolidateMemories now dr pt (some 0) episodicHits semanticHits =
      handleConsolidateMemories now dr pt (some 5) episodicHits semanticHits ∧
    coerceMinEvidence (some 0) = 5 ∧
    coerceMinEvidence none = 5 :=
  ⟨rfl, rfl, rfl⟩

/-- Claim C9 as amended: the dispatcher validates nothing.  Every
`store_pattern` call issues the embedding-generator call first, whatever
the arguments; with a missing `metadata` the operation fails only after
that external call has been made; and an unrecognized `memory_type` enum
value is not rejected at all — the pattern is stored (with no expiration,
since the tier lookup finds no entry) and the call reports success. -/
theorem storePattern_no_validation (now : ℚ) (args : StoreArgs)
    (category content : String) (md : Metadata) :
    (handleStorePattern now args).1.head? = some (ExtOp.embed args.content) ∧
    handleStorePattern now { category := category, content := content, metadata := none } =
      ([ExtOp.embed content],
       Except.error "TypeError: cannot read properties of undefined") ∧
    handleStorePattern now
        { category := category, memory_type := some "bogus",
          content := content, metadata := some md } =
      ([ExtOp.embed content,
        ExtOp.hSet (mkPatternId "bogus" category content)
          { category := category, memory_type := "bogus", content := content,
            metadata := enrichMetadata now md, embedding_of := content }],
       Except.ok
         { pattern_id := mkPatternId "bogus" category content
           memory_type := "bogus"
           ttl_seconds := none
           status := "stored" }) := by
  refine ⟨?_, rfl, rfl⟩
  rcases args with ⟨cat, mt, c, mdo⟩
  cases mdo <;> rfl

/-- A `store_pattern` call with an unrecognized `memory_type` enum value. -/
def argsBadEnum : StoreArgs :=
  { category := "solution"
    memory_type := some "bogus"
    content := "x"
    metadata := some {} }

/-- A `store_pattern` call missing the required `metadata` field. -/
def argsNoMetadata : StoreArgs :=
  { category := "solution"
    content := "y"
    metadata := none }

/-- Claim C9 counterexample: a malformed `store_pattern` call is not
rejected before any external call.  With an unrecognized `memory_type` the
call performs the embedding call and the store write and succeeds; with a
missing `metadata` the embedding call has already been issued when the
operation fails. -/
theorem storePattern_malformed_input_cex :
    ((handleStorePattern 0 argsBadEnum).1.filter isWriteOp).length = 1 ∧
    resultOk (handleStorePattern 0 argsBadEnum).2 = true ∧
    (handleStorePattern 0 argsNoMetadata).1 = [ExtOp.embed "y"] ∧
    resultOk (handleStorePattern 0 argsNoMetadata).2 = false :=
  ⟨rfl, rfl, rfl, rfl⟩

/-- A metadata record with a present-but-zero confidence and a present
`last_validated`. -/
def mdZeroConfidence : Metadata :=
  { confidence := some 0, evidence_count := some 3, last_validated := some 0 }

/-- Claim C6 counterexample: a search hit whose decoded metadata contains
both a `confidence` field and a `last_validated` field, but with
`confidence = 0` (falsy in JS), is passed through unchanged: the result
exposes neither `confidence_current` nor `confidence_original`. -/
theorem search_zero_confidence_cex :
    mdZeroConfidence.confidence.isSome = true ∧
    mdZeroConfidence.last_validated.isSome = true ∧
    (applyDecayToMetadata 0 mdZeroConfidence).confidence_current = none ∧
    (applyDecayToMetadata 0 mdZeroConfidence).confidence_original = none :=
  ⟨rfl, rfl, rfl, rfl⟩

/-- Claim C6 as amended: for every search hit whose metadata has a nonzero
(truthy) `confidence` and a present `last_validated`, the post-processed
result exposes `confidence_original`, equal to the stored confidence, and
`confidence_current`, the decayed value; the `confidence` field itself is
left unaltered, and the search operation performs no store writes. -/
theorem search_exposes_decay (now : ℚ) (m : Metadata) (c t : ℚ)
    (hc : m.confidence = some c) (h0 : c ≠ 0)
    (hl : m.last_validated = some t) :
    (applyDecayToMetadata now m).confidence_original = some c ∧
    (applyDecayToMetadata now m).confidence_current =
      some (calculateConfidenceDecay (c : ℝ) (some t) now) ∧
    (applyDecayToMetadata now m).confidence = m.confidence ∧
    (∀ query k category memoryType hits,
      (searchPatterns now query k category memoryType hits).1.filter
        isWriteOp = []) := by
  refine ⟨?_, ?_, ?_, fun query k category memoryType hits => rfl⟩ <;>
    simp [applyDecayToMetadata, truthyConfidence, hc, hl, h0]

/-- A metadata record with a nonzero confidence and a present
`last_validated`. -/
def mdHalfConfidence : Metadata :=
  { confidence := some (1 / 2), evidence_count := some 3,
    last_validated := some 0 }

/-- Witness for `search_exposes_decay` at a concrete metadata record. -/
theorem search_exposes_decay_witness :
    mdHalfConfidence.confidence = some (1 / 2) ∧ (1 / 2 : ℚ) ≠ 0 ∧
    mdHalfConfidence.last_validated = some 0 ∧
    ((applyDecayToMetadata 7 mdHalfConfidence).confidence_original =
        some (1 / 2) ∧
      (applyDecayToMetadata 7 mdHalfConfidence).confidence_current =
        some (calculateConfidenceDecay ((1 / 2 : ℚ) : ℝ) (some 0) 7) ∧
      (applyDecayToMetadata 7 mdHalfConfidence).confidence =
        mdHalfConfidence.confidence ∧
      (∀ query k category memoryType hits,
        (searchPatterns 7 query k category memoryType hits).1.filter
          isWriteOp = [])) :=
  ⟨rfl, by norm_num, rfl,
   search_exposes_decay 7 mdHalfConfidence (1 / 2) 0 rfl (by norm_num) rfl⟩

/-- The only write in a `storePattern` trace carries the enrichment of the
caller metadata. -/
theorem storedMetadatas_storePattern (now : ℚ)
    (category memoryType content : String) (md : Metadata) :
    storedMetadatas (storePattern now category memoryType content (some md)).1 =
      [enrichMetadata now md] := by
  unfold storePattern storedMetadatas
  cases h : ttlOf memoryType with
  | none => simp
  | some t =>
    by_cases ht : t = 0 <;> simp [ht]

/-- A concrete episodic hit eligible for promotion, as the index would
return it. -/
def hitPromo : Hit :=
  { pattern_id := "pattern:episodic:solution:1"
    category := "solution"
    memory_type := "episodic"
    content := "lesson"
    metadata := { confidence := some (mkRat 9 10), evidence_count := some 5,
                  last_validated := some 0 } }

/-- Claim C1 counterexample: a non-dry-run consolidation over one eligible
episodic hit stores a semantic copy whose persisted metadata contains a
`confidence_current` field, so `confidence_current` is not only computed
at read time. -/
theorem consolidate_stores_confidence_current_cex :
    (storedMetadatas (consolidateMemories 1000 false "episodic_to_semantic" 5
        [hitPromo] []).1).map (fun m => m.confidence_current.isSome) =
      [true] := by decide

/-- Claim C1 as amended: a direct `storePattern` call persists exactly the
enrichment of the caller metadata, whose `confidence_current` field equals
whatever the caller passed (`none` when absent) and whose `confidence` is
the caller's pristine value; but a Phase A promotion stores the
search-processed metadata, so whenever the source hit has a truthy
`confidence` and a present `last_validated`, the semantic copy's persisted
metadata does contain `confidence_current`. -/
theorem stored_confidence_current_provenance (now : ℚ)
    (category memoryType content : String) (md : Metadata) (p : Hit)
    (hc : truthyConfidence p.metadata.confidence = true)
    (hl : p.metadata.last_validated.isSome = true) :
    storedMetadatas (storePattern now category memoryType content (some md)).1 =
      [enrichMetadata now md] ∧
    (enrichMetadata now md).confidence_current = md.confidence_current ∧
    (enrichMetadata now md).confidence = md.confidence ∧
    (storedMetadatas (storePattern now p.category "semantic" p.content
        (some (promotionMetadata now
          { p with metadata := applyDecayToMetadata now p.metadata }))).1).map
      (fun m => m.confidence_current.isSome) = [true] := by
  refine ⟨storedMetadatas_storePattern now category memoryType content md,
    rfl, rfl, ?_⟩
  rw [storedMetadatas_storePattern]
  simp [enrichMetadata, promotionMetadata, applyDecayToMetadata, hc, hl]

/-- Witness for `stored_confidence_current_provenance` at a concrete hit
and metadata. -/
theorem stored_confidence_current_provenance_witness :
    truthyConfidence hitPromo.metadata.confidence = true ∧
    hitPromo.metadata.last_validated.isSome = true ∧
    (storedMetadatas (storePattern 1000 "solution" "semantic" "c"
        (some ({} : Metadata))).1 = [enrichMetadata 1000 {}] ∧
      (enrichMetadata 1000 ({} : Metadata)).confidence_current =
        ({} : Metadata).confidence_current ∧
      (enrichMetadata 1000 ({} : Metadata)).confidence =
        ({} : Metadata).confidence ∧
      (storedMetadatas (storePattern 1000 hitPromo.category "semantic"
          hitPromo.content
          (some (promotionMetadata 1000
            { hitPromo with
              metadata := applyDecayToMetadata 1000 hitPromo.metadata }))).1).map
        (fun m => m.confidence_current.isSome) = [true]) :=
  ⟨by decide, rfl,
   stored_confidence_current_provenance 1000 "solution" "semantic" "c" {}
     hitPromo (by decide) rfl⟩

/-- The candidate list accumulated by the Phase A loop does not depend on
the dry-run flag: it appends exactly the hits meeting the evidence
threshold, in order, through the candidate constructor. -/
theorem foldl_phaseAStep_candidates (now : ℚ) (dryRun : Bool)
    (minEvidence : ℤ) (l : List Hit) (ops : List ExtOp)
    (cands : List Candidate) (n : ℕ) :
    (l.foldl (phaseAStep now dryRun minEvidence) (ops, cands, n)).2.1 =
      cands ++ (l.filter fun p =>
        decide (minEvidence ≤ p.metadata.evidence_count.getD 0)).map
        mkCandidateA := by
  induction l generalizing ops cands n with
  | nil => simp
  | cons p l ih =>
    rw [List.foldl_cons, List.filter_cons]
    by_cases h : minEvidence ≤ p.metadata.evidence_count.getD 0
    · cases dryRun <;> simp [phaseAStep, h, ih]
    · simp [phaseAStep, h, ih]

/-- In a dry run the Phase A loop only accumulates candidates: the
operation trace and the promoted counter pass through untouched. -/
theorem foldl_phaseAStep_dry (now : ℚ) (minEvidence : ℤ) (l : List Hit)
    (ops : List ExtOp) (cands : List Candidate) (n : ℕ) :
    l.foldl (phaseAStep now true minEvidence) (ops, cands, n) =
      (ops,
       cands ++ (l.filter fun p =>
         decide (minEvidence ≤ p.metadata.evidence_count.getD 0)).map
         mkCandidateA,
       n) := by
  induction l generalizing cands with
  | nil => simp
  | cons p l ih =>
    rw [List.foldl_cons, List.filter_cons]
    by_cases h : minEvidence ≤ p.metadata.evidence_count.getD 0 <;>
      simp [phaseAStep, h, ih]

/-- The candidate list accumulated by the Phase B loop does not depend on
the dry-run flag. -/
theorem foldl_phaseBStep_candidates (dryRun : Bool) (l : List Hit)
    (ops : List ExtOp) (cands : List CanonicalCandidate) (n : ℕ) :
    (l.foldl (phaseBStep dryRun) (ops, cands, n)).2.1 =
      cands ++ (l.filter fun p =>
        decide (20 ≤ p.metadata.evidence_count.getD 0 ∧
          (0.95 : ℚ) ≤ p.metadata.confidence.getD 0)).map mkCandidateB := by
  induction l generalizing ops cands n with
  | nil => simp
  | cons p l ih =>
    rw [List.foldl_cons, List.filter_cons]
    by_cases h : 20 ≤ p.metadata.evidence_count.getD 0 ∧
        (0.95 : ℚ) ≤ p.metadata.confidence.getD 0
    · cases dryRun <;> simp [phaseBStep, h, ih]
    · simp [phaseBStep, h, ih]

/-- In a dry run the Phase B loop only accumulates candidates: the
operation trace and the graduated counter pass through untouched. -/
theorem foldl_phaseBStep_dry (l : List Hit) (ops : List ExtOp)
    (cands : List CanonicalCandidate) (n : ℕ) :
    l.foldl (phaseBStep true) (ops, cands, n) =
      (ops,
       cands ++ (l.filter fun p =>
         decide (20 ≤ p.metadata.evidence_count.getD 0 ∧
           (0.95 : ℚ) ≤ p.metadata.confidence.getD 0)).map mkCandidateB,
       n) := by
  induction l generalizing cands with
  | nil => simp
  | cons p l ih =>
    rw [List.foldl_cons, List.filter_cons]
    by_cases h : 20 ≤ p.metadata.evidence_count.getD 0 ∧
        (0.95 : ℚ) ≤ p.metadata.confidence.getD 0 <;>
      simp [phaseBStep, h, ih]

/-- Claim C4: a dry-run consolidation produces the same candidate lists,
for both phases, as a non-dry run over the same underlying data; it leaves
the promoted and graduated counters at 0; and its external-call trace
contains no store write. -/
theorem consolidate_dry_run_purity (now : ℚ) (promotionType : String)
    (minEvidence : ℤ) (episodicHits semanticHits : List Hit) :
    (consolidateMemories now true promotionType minEvidence episodicHits
        semanticHits).2.ets_candidates =
      (consolidateMemories now false promotionType minEvidence episodicHits
        semanticHits).2.ets_candidates ∧
    (consolidateMemories now true promotionType minEvidence episodicHits
        semanticHits).2.stc_candidates =
      (consolidateMemories now false promotionType minEvidence episodicHits
        semanticHits).2.stc_candidates ∧
    (consolidateMemories now true promotionType minEvidence episodicHits
        semanticHits).2.promoted = 0 ∧
    (consolidateMemories now true promotionType minEvidence episodicHits
        semanticHits).2.graduated = 0 ∧
    (consolidateMemories now true promotionType minEvidence episodicHits
        semanticHits).1.filter isWriteOp = [] := by
  unfold consolidateMemories
  by_cases hA : promotionType = "episodic_to_semantic" ∨ promotionType = "both" <;>
    by_cases hB : promotionType = "semantic_to_canonical" ∨ promotionType = "both" <;>
      simp [hA, hB, searchPatterns, isWriteOp, foldl_phaseAStep_candidates,
        foldl_phaseAStep_dry, foldl_phaseBStep_candidates, foldl_phaseBStep_dry]

/-- An episodic hit with evidence count exactly at the default threshold. -/
def hitEv5 : Hit :=
  { pattern_id := "p5", category := "solution", memory_type := "episodic"
    content := "alpha", metadata := { evidence_count := some 5 } }

/-- An episodic hit one below the default threshold. -/
def hitEv4 : Hit :=
  { pattern_id := "p4", category := "solution", memory_type := "episodic"
    content := "beta", metadata := { evidence_count := some 4 } }

/-- An episodic hit whose metadata lacks `evidence_count`. -/
def hitEvAbsent : Hit :=
  { pattern_id := "p0", category := "solution", memory_type := "episodic"
    content := "gamma", metadata := {} }

/-- Claim C5: Phase A records an enumerated episodic pattern as a
candidate exactly when its evidence count (read as 0 when the field is
absent) meets `min_evidence`; at the boundary, a count of 5 is included
under threshold 5 while 4 and an absent count are excluded. -/
theorem phaseA_candidate_selection (now : ℚ) (dryRun : Bool)
    (minEvidence : ℤ) (episodicHits semanticHits : List Hit) :
    (consolidateMemories now dryRun "episodic_to_semantic" minEvidence
        episodicHits semanticHits).2.ets_candidates =
      ((searchPostProcess now episodicHits).filter fun p =>
        decide (minEvidence ≤ p.metadata.evidence_count.getD 0)).map
        mkCandidateA ∧
    (∀ m : Metadata,
      ({ m with evidence_count := none } : Metadata).evidence_count.getD 0
        = 0) ∧
    (consolidateMemories now dryRun "episodic_to_semantic" 5
        [hitEv5, hitEv4, hitEvAbsent] semanticHits).2.ets_candidates =
      [mkCandidateA hitEv5] := by
  have hsel : ∀ (minEv : ℤ) (hits : List Hit),
      (consolidateMemories now dryRun "episodic_to_semantic" minEv hits
        semanticHits).2.ets_candidates =
      ((searchPostProcess now hits).filter fun p =>
        decide (minEv ≤ p.metadata.evidence_count.getD 0)).map
        mkCandidateA := by
    intro minEv hits
    unfold consolidateMemories
    simp [searchPatterns, foldl_phaseAStep_candidates]
  refine ⟨hsel minEvidence episodicHits, fun m => rfl, ?_⟩
  rw [hsel 5 [hitEv5, hitEv4, hitEvAbsent]]
  rfl

end SemanticMemory
